import Mathlib

/-!
Verification of the freshrss_embeeds pipeline.

This file gives a shallow embedding of the core pipeline of the repository:

- the Bandcamp embed resolver of src/freshrss_html_generator.py
  (fetch_bandcamp_embed_from_html, get_bandcamp_embed, extract_bandcamp_id),
  where each concrete regular expression of the source is embedded as a
  dedicated character-list scanner with the same match semantics
  (leftmost search, greedy or lazy pieces as in the pattern);
- the per-feed processing loop of process_feed with its run-scoped
  deduplication sets (network fetches are abstracted by oracles:
  a per-attempt fetch outcome for the resolver, and a url-to-embed
  resolver function for the processing loop);
- the merge, stable date sort and pagination of generate_feed_html;
- the synchronization algorithm of src/freshrss_sync.py
  (sync_feed and the empty-shell fixup of regenerate_html).

Theorems named claimCn settle the frozen claims about this code.
-/

namespace FreshRSS

/-! ### Character utilities -/

/-- Double quote character, written by code to avoid literal clutter. -/
def dquote_char : Char := Char.ofNat 34

/-- Single quote character. -/
def squote_char : Char := Char.ofNat 39

/-- Opening curly brace character. -/
def lbrace_char : Char := Char.ofNat 123

/-- Closing curly brace character. -/
def rbrace_char : Char := Char.ofNat 125

/-- Python regex class backslash-s: space, tab, newline, carriage return,
vertical tab, form feed. -/
def is_py_space (c : Char) : Bool :=
  c == (' ') || c == (Char.ofNat 9) || c == (Char.ofNat 10) ||
  c == (Char.ofNat 13) || c == (Char.ofNat 11) || c == (Char.ofNat 12)

/-- Hexadecimal digit, for the bgcol color run in method 4. -/
def is_hex_char (c : Char) : Bool :=
  c.isDigit || (97 ≤ c.toNat && c.toNat ≤ 102) || (65 ≤ c.toNat && c.toNat ≤ 70)

/-! ### Scanner combinators

Each Python regex used by the source is embedded below as a scanner built
from these combinators.  A scanner tries to match at the head of a character
list and returns the parsed payload, or none.  The function re_search applies
a scanner at every position, leftmost first, exactly like Python re.search. -/

/-- Leftmost search: try the scanner at each suffix, earliest start wins. -/
def re_search (f : List Char → Option α) : List Char → Option α
  | [] => f []
  | c :: cs =>
    match f (c :: cs) with
    | some r => some r
    | none => re_search f cs

/-- Match a literal character sequence, returning the rest. -/
def drop_lit : List Char → List Char → Option (List Char)
  | [], s => some s
  | _ :: _, [] => none
  | p :: ps, c :: cs => if c == p then drop_lit ps cs else none

/-- Match a literal character sequence ignoring ASCII case, as re.IGNORECASE. -/
def drop_lit_ci : List Char → List Char → Option (List Char)
  | [], s => some s
  | _ :: _, [] => none
  | p :: ps, c :: cs => if c.toLower == p.toLower then drop_lit_ci ps cs else none

/-- Match one given character. -/
def drop_char (x : Char) : List Char → Option (List Char)
  | [] => none
  | c :: cs => if c == x then some cs else none

/-- Regex backslash-s star: drop any run of whitespace. -/
def drop_ws (s : List Char) : List Char := s.dropWhile is_py_space

/-- Regex backslash-s plus: require at least one whitespace character. -/
def drop_ws1 : List Char → Option (List Char)
  | [] => none
  | c :: cs => if is_py_space c then some (drop_ws cs) else none

/-- Greedy digit run, regex group of one or more digits. -/
def digits1 (s : List Char) : Option (List Char × List Char) :=
  let ds := s.takeWhile Char.isDigit
  if ds.isEmpty then none else some (ds, s.dropWhile Char.isDigit)

/-- Optional single character, for the optional quotes in the id patterns.
In every pattern of the source the character that follows the optional
quote cannot itself be a quote, so consuming the quote when present is
equivalent to full regex backtracking. -/
def opt_char (x : Char) (s : List Char) : List Char :=
  match s with
  | [] => []
  | c :: cs => if c == x then cs else c :: cs

/-- Greedy character-class gap followed by a continuation, with backtracking:
longest consumable run is tried first, exactly like a greedy regex class. -/
def greedy_gap (allowed : Char → Bool) (cont : List Char → Option α) :
    List Char → Option α
  | [] => cont []
  | c :: cs =>
    if allowed c then
      match greedy_gap allowed cont cs with
      | some r => some r
      | none => cont (c :: cs)
    else cont (c :: cs)

/-- Case-insensitive substring test. -/
def contains_ci (needle hay : List Char) : Bool :=
  (re_search (fun s => drop_lit_ci needle s) hay).isSome

/-! ### The script-data block pattern

Source regex (line 202 and 233 of freshrss_html_generator.py): the keyword
var, whitespace, a block name, equals sign, then a brace-delimited group
matched lazily up to the first closing brace that is followed by a
semicolon, with DOTALL so the block may span lines. -/

/-- Lazy scan for the earliest closing brace followed by a semicolon, with at
least one character consumed; returns the consumed characters. -/
def block_inner_go (acc : List Char) : List Char → Option (List Char)
  | [] => none
  | y :: ys =>
    if y == rbrace_char && (match ys with
      | z :: _ => z == (';')
      | [] => false) then some acc.reverse
    else block_inner_go (y :: acc) ys

/-- Lazy one-or-more block content: the shortest nonempty prefix whose next
two characters are a closing brace and a semicolon. -/
def block_inner : List Char → Option (List Char)
  | [] => none
  | x :: xs => block_inner_go [x] xs

/-- Scanner for the var NAME = brace-block pattern at one position; the
returned group includes the surrounding braces, as group 1 of the source
regex does. -/
def var_block_at (name : List Char) (s : List Char) : Option (List Char) := do
  let s ← drop_lit (("var").data) s
  let s ← drop_ws1 s
  let s ← drop_lit name s
  let s := drop_ws s
  let s ← drop_char ('=') s
  let s := drop_ws s
  let s ← drop_char lbrace_char s
  let inner ← block_inner s
  pure (lbrace_char :: (inner ++ [rbrace_char]))

/-- Search for the TralbumData block, method 1 of the cascade. -/
def tralbum_data_block (s : List Char) : Option (List Char) :=
  re_search (var_block_at (("TralbumData").data)) s

/-- Search for the EmbedData block, method 2 of the cascade. -/
def embed_data_block (s : List Char) : Option (List Char) :=
  re_search (var_block_at (("EmbedData").data)) s

/-! ### The key-colon-digits patterns

Source regexes of the form optional quote, a key name, optional quote,
colon with optional surrounding whitespace, then a digit group. -/

/-- Scanner at one position for the key-colon-digits pattern. -/
def key_digits_at (key : List Char) (s : List Char) : Option (List Char) := do
  let s := opt_char dquote_char s
  let s ← drop_lit key s
  let s := opt_char dquote_char s
  let s := drop_ws s
  let s ← drop_char (':') s
  let s := drop_ws s
  let (ds, _) ← digits1 s
  pure ds

/-- Search for album_id colon digits (lines 212, 242, 262 of the source). -/
def search_album_id (s : List Char) : Option (List Char) :=
  re_search (key_digits_at (("album_id").data)) s

/-- Search for track_id colon digits (lines 249, 276 of the source). -/
def search_track_id (s : List Char) : Option (List Char) :=
  re_search (key_digits_at (("track_id").data)) s

/-- Search for a bare id colon digits (line 222 of the source). -/
def search_plain_id (s : List Char) : Option (List Char) :=
  re_search (key_digits_at (("id").data)) s

/-- Scanner at one position for the item_type pattern of line 220: optional
quote, the key item_type, optional quote, colon, optional quote, then the
alternation track before album; the group is the matched word. -/
def item_type_at (s : List Char) : Option (List Char) := do
  let s := opt_char dquote_char s
  let s ← drop_lit (("item_type").data) s
  let s := opt_char dquote_char s
  let s := drop_ws s
  let s ← drop_char (':') s
  let s := drop_ws s
  let s := opt_char dquote_char s
  match drop_lit (("track").data) s with
  | some _ => pure (("track").data)
  | none =>
    match drop_lit (("album").data) s with
    | some _ => pure (("album").data)
    | none => none

/-- Search for the item_type word. -/
def search_item_type (s : List Char) : Option (List Char) :=
  re_search item_type_at s

/-! ### Method 3 patterns, unscoped search across the page -/

/-- Scanner for the data attribute pattern of lines 261 and 276: band id,
then a lazy gap to the item id, then a lazy gap to the requested item type;
group 2, the item id digits, is returned.  The lazy gaps are embedded as
inner leftmost searches, which is exactly lazy-dot-star semantics under
DOTALL. -/
def data_attr_at (item_type : List Char) (s : List Char) : Option (List Char) := do
  let s ← drop_lit (("data-band-id=").data) s
  let s ← drop_char dquote_char s
  let (_, s) ← digits1 s
  let s ← drop_char dquote_char s
  re_search (fun t => do
    let t ← drop_lit (("data-item-id=").data) t
    let t ← drop_char dquote_char t
    let (d2, t) ← digits1 t
    let t ← drop_char dquote_char t
    re_search (fun u => do
      let u ← drop_lit (("data-item-type=").data) u
      let u ← drop_char dquote_char u
      let u ← drop_lit item_type u
      let _ ← drop_char dquote_char u
      pure d2) t) s

/-- Search with the data attribute pattern for a given item type. -/
def search_data_attr (item_type : List Char) (s : List Char) : Option (List Char) :=
  re_search (data_attr_at item_type) s

/-- Scanner for the keyword equals-or-slash digits pattern of lines 263 and
278: the keyword, one of equals or slash, then a run of eight to twelve
digits (greedy, so up to twelve of a longer run). -/
def kw_numeric_at (kw : List Char) (s : List Char) : Option (List Char) := do
  let s ← drop_lit kw s
  let s ← (match s with
    | [] => none
    | c :: cs => if c == ('=') || c == ('/') then some cs else none)
  let (ds, _) ← digits1 s
  if 8 ≤ ds.length then pure (ds.take 12) else none

/-- Search for album equals-or-slash eight-to-twelve digits. -/
def search_album_num (s : List Char) : Option (List Char) :=
  re_search (kw_numeric_at (("album").data)) s

/-- Search for track equals-or-slash eight-to-twelve digits. -/
def search_track_num (s : List Char) : Option (List Char) :=
  re_search (kw_numeric_at (("track").data)) s

/-! ### Method 4, the iframe fallback -/

/-- Scanner for the iframe pattern of line 291, case-insensitive: the iframe
tag opener, a greedy non-gt gap, src equals, a quote, then the group of
non-quote characters that must contain EmbeddedPlayer, closed by a quote.
Because quotes are excluded from the group and a quote must follow it, the
group is forced to be the whole non-quote run after the opening quote. -/
def iframe_src_at (s : List Char) : Option (List Char) := do
  let s ← drop_lit_ci (("<iframe").data) s
  greedy_gap (fun c => !(c == ('>'))) (fun t => do
    let t ← drop_lit_ci (("src=").data) t
    match t with
    | [] => none
    | q :: rest =>
      if q == dquote_char || q == squote_char then
        let run := rest.takeWhile (fun c => !(c == dquote_char) && !(c == squote_char))
        match rest.drop run.length with
        | q2 :: _ =>
          if (q2 == dquote_char || q2 == squote_char) &&
              contains_ci (("EmbeddedPlayer").data) run then
            some run
          else none
        | [] => none
      else none) s

/-- Search for the embedded player iframe source url. -/
def search_iframe_src (s : List Char) : Option (List Char) :=
  re_search iframe_src_at s

/-- Scanner for one bgcol color occurrence: the bgcol key, an equals sign and
a nonempty hexadecimal run; returns the rest after the run. -/
def bgcol_match_at (s : List Char) : Option (List Char) := do
  let s ← drop_lit (("bgcol=").data) s
  let ds := s.takeWhile is_hex_char
  if ds.isEmpty then none else pure (s.drop ds.length)

/-- Fuelled global substitution of every bgcol color by the dark theme color,
as re.sub on line 300 of the source. -/
def bgcol_sub_go : Nat → List Char → List Char
  | 0, s => s
  | _ + 1, [] => []
  | fuel + 1, c :: cs =>
    match bgcol_match_at (c :: cs) with
    | some rest => (("bgcol=1f1f28").data) ++ bgcol_sub_go fuel rest
    | none => c :: bgcol_sub_go fuel cs

/-- Global bgcol substitution. -/
def bgcol_sub (s : List Char) : List Char := bgcol_sub_go s.length s

/-! ### Embed markup builders, the f-strings of the source -/

/-- Iframe markup wrapper used by every cascade success. -/
def embed_iframe_html (url : List Char) : String :=
  ("<iframe style=\"border: 0; width: 400px; height: 120px;\" src=\"") ++
    String.mk url ++ ("\" seamless></iframe>")

/-- Album embedded player url. -/
def album_embed_url (album_id : List Char) : List Char :=
  (("https://bandcamp.com/EmbeddedPlayer/album=").data) ++ album_id ++
    (("/size=large/bgcol=1f1f28/linkcol=9a64ff/tracklist=false/artwork=small/transparent=true/").data)

/-- Track embedded player url. -/
def track_embed_url (track_id : List Char) : List Char :=
  (("https://bandcamp.com/EmbeddedPlayer/track=").data) ++ track_id ++
    (("/size=large/bgcol=1f1f28/linkcol=9a64ff/tracklist=false/artwork=small/transparent=true/").data)

/-- Album embed markup. -/
def album_embed_html (album_id : List Char) : String :=
  embed_iframe_html (album_embed_url album_id)

/-- Track embed markup. -/
def track_embed_html (track_id : List Char) : String :=
  embed_iframe_html (track_embed_url track_id)

/-! ### The extraction cascade, fetch_bandcamp_embed_from_html -/

/-- Method 1 of the cascade, lines 201 to 229 of the source: inside the
TralbumData block, an album id wins; failing that, if the block declares
item type track, its bare id field is used as track id. -/
def method1_tralbum (s : List Char) : Option String :=
  match tralbum_data_block s with
  | none => none
  | some block =>
    match search_album_id block with
    | some aid => some (album_embed_html aid)
    | none =>
      match search_item_type block with
      | some ty =>
        if ty = (("track").data) then
          match search_plain_id block with
          | some tid => some (track_embed_html tid)
          | none => none
        else none
      | none => none

/-- Method 2 of the cascade, lines 232 to 256: the EmbedData block, album id
first, then track id. -/
def method2_embed_data (s : List Char) : Option String :=
  match embed_data_block s with
  | none => none
  | some block =>
    match search_album_id block with
    | some aid => some (album_embed_html aid)
    | none =>
      match search_track_id block with
      | some tid => some (track_embed_html tid)
      | none => none

/-- Method 3 of the cascade, lines 258 to 287: unscoped patterns over the
whole page, album patterns in order, then track patterns in order. -/
def method3_general (s : List Char) : Option String :=
  match search_data_attr (("album").data) s with
  | some aid => some (album_embed_html aid)
  | none =>
    match search_album_id s with
    | some aid => some (album_embed_html aid)
    | none =>
      match search_album_num s with
      | some aid => some (album_embed_html aid)
      | none =>
        match search_data_attr (("track").data) s with
        | some tid => some (track_embed_html tid)
        | none =>
          match search_track_id s with
          | some tid => some (track_embed_html tid)
          | none =>
            match search_track_num s with
            | some tid => some (track_embed_html tid)
            | none => none

/-- Method 4 of the cascade, lines 289 to 302: reuse an iframe already
present in the page, normalizing a protocol-relative url and rewriting the
background color to the dark theme. -/
def method4_iframe (s : List Char) : Option String :=
  match search_iframe_src s with
  | none => none
  | some url =>
    let url := if (("//").data).isPrefixOf url then (("https:").data) ++ url else url
    some (embed_iframe_html (bgcol_sub url))

/-- The full ordered cascade of fetch_bandcamp_embed_from_html, first
success wins. -/
def fetch_bandcamp_embed_from_html (html : String) : Option String :=
  let s := html.data
  match method1_tralbum s with
  | some r => some r
  | none =>
    match method2_embed_data s with
    | some r => some r
    | none =>
      match method3_general s with
      | some r => some r
      | none => method4_iframe s

/-! ### The retrying fetcher, get_bandcamp_embed

Network fetches are abstracted by an oracle giving the outcome of each
attempt.  The source loop (lines 318 to 355) runs up to retry_count
attempts; an http 404 returns immediately, every other failure falls
through to the next attempt, and a fetched page whose cascade fails also
consumes an attempt.  The embedding also returns the number of fetch
attempts actually issued. -/

/-- Outcome of one fetch attempt: a page body, an http error status, a
connection-level urllib error, or any other exception. -/
inductive FetchResult where
  | success (html : String)
  | httpError (code : Nat)
  | connError
  | otherError
deriving DecidableEq

/-- The attempt loop of get_bandcamp_embed from a given attempt index, with
the remaining attempts as fuel; returns the embed markup if any, paired
with the index one past the last attempt issued. -/
def get_bandcamp_embed_from (oracle : Nat → FetchResult) (attempt : Nat) :
    Nat → Option String × Nat
  | 0 => (none, attempt)
  | fuel + 1 =>
    match oracle attempt with
    | .success html =>
      match fetch_bandcamp_embed_from_html html with
      | some embed => (some embed, attempt + 1)
      | none => get_bandcamp_embed_from oracle (attempt + 1) fuel
    | .httpError code =>
      if code = 404 then (none, attempt + 1)
      else get_bandcamp_embed_from oracle (attempt + 1) fuel
    | .connError => get_bandcamp_embed_from oracle (attempt + 1) fuel
    | .otherError => get_bandcamp_embed_from oracle (attempt + 1) fuel

/-- Full run of get_bandcamp_embed with retry budget retry_count. -/
def get_bandcamp_embed_run (oracle : Nat → FetchResult) (retry_count : Nat) :
    Option String × Nat :=
  get_bandcamp_embed_from oracle 0 retry_count

/-- Result of get_bandcamp_embed, dropping the attempt counter. -/
def get_bandcamp_embed (oracle : Nat → FetchResult) (retry_count : Nat) :
    Option String :=
  (get_bandcamp_embed_run oracle retry_count).1

/-- Failure classified as retryable by the claims: a server error with
status at least 500, or a connection-level error. -/
def RetryableFailure (r : FetchResult) : Prop :=
  (∃ code, 500 ≤ code ∧ r = .httpError code) ∨ r = .connError

/-! ### Display id extraction, extract_bandcamp_id -/

/-- Search for a keyword immediately followed by a digit run, the patterns
album equals digits and track equals digits of lines 414 and 419. -/
def search_kw_digits (kw : List Char) (s : List Char) : Option (List Char) :=
  re_search (fun t => do
    let t ← drop_lit kw t
    let (ds, _) ← digits1 t
    pure ds) s

/-- Extraction of the localStorage display id from embed markup, lines 406
to 423 of the source: the album id prefixed by album, else the track id
prefixed by track, else nothing.  A falsy (empty) embed code yields
nothing. -/
def extract_bandcamp_id (embed_code : String) : Option String :=
  if embed_code = ("") then none
  else
    match search_kw_digits (("album=").data) embed_code.data with
    | some ds => some (("album_") ++ String.mk ds)
    | none =>
      match search_kw_digits (("track=").data) embed_code.data with
      | some ds => some (("track_") ++ String.mk ds)
      | none => none

/-! ### Articles and embed records

An article is modelled with its metadata and the per-kind candidate url
lists; the candidate lists stand for the output of extract_bandcamp_url,
extract_youtube_url and extract_soundcloud_url applied to the article
content plus link (pure regex extraction with set deduplication), and the
date field stands for the strftime-formatted publication timestamp. -/

structure Article where
  title : String
  link : String
  author : String
  feed_title : String
  date : String
  bandcamp_urls : List String
  youtube_urls : List String
  soundcloud_urls : List String
deriving DecidableEq

/-- One embed record as built by process_feed, lines 484 to 536: the url,
the embed markup for bandcamp entries, the article metadata and the
localStorage id (absent when extraction failed). -/
structure RawEmbed where
  url : String
  embed : Option String
  title : String
  article_link : String
  author : String
  feed : String
  date : String
  id : Option String
deriving DecidableEq

/-- Bandcamp record of lines 484 to 493, with id from extract_bandcamp_id. -/
def mk_bandcamp_item (art : Article) (url embed_code : String) : RawEmbed :=
  { url := url
    embed := some embed_code
    title := art.title
    article_link := art.link
    author := art.author
    feed := art.feed_title
    date := art.date
    id := extract_bandcamp_id embed_code }

/-- Youtube or soundcloud record of lines 508 to 536, with the url itself
as id. -/
def mk_plain_item (art : Article) (url : String) : RawEmbed :=
  { url := url
    embed := none
    title := art.title
    article_link := art.link
    author := art.author
    feed := art.feed_title
    date := art.date
    id := some url }

/-! ### The processing loop, process_feed

The three processed url sets and per-kind output lists of lines 437 to 446
are carried in a run state.  The resolver function abstracts the call
get_bandcamp_embed url; the resolved_log field is ghost instrumentation
recording each url actually handed to the resolver, in order. -/

structure RunState where
  processed_bandcamp : List String
  processed_youtube : List String
  processed_soundcloud : List String
  out_bandcamp : List RawEmbed
  out_youtube : List RawEmbed
  out_soundcloud : List RawEmbed
  resolved_log : List String
deriving DecidableEq

/-- Initial run state: empty sets and outputs. -/
def init_run_state : RunState :=
  { processed_bandcamp := []
    processed_youtube := []
    processed_soundcloud := []
    out_bandcamp := []
    out_youtube := []
    out_soundcloud := []
    resolved_log := [] }

/-- Handling of one bandcamp candidate url, lines 472 to 496: a url already
processed is skipped; otherwise it is marked processed, resolved once, and
materialized only when the resolver produced embed markup. -/
def handle_bandcamp_url (resolver : String → Option String) (art : Article)
    (st : RunState) (url : String) : RunState :=
  if url ∈ st.processed_bandcamp then st
  else
    let st := { st with
      processed_bandcamp := st.processed_bandcamp ++ [url]
      resolved_log := st.resolved_log ++ [url] }
    match resolver url with
    | some embed_code =>
      { st with out_bandcamp := st.out_bandcamp ++ [mk_bandcamp_item art url embed_code] }
    | none => st

/-- Handling of one youtube candidate url, lines 499 to 516. -/
def handle_youtube_url (art : Article) (st : RunState) (url : String) : RunState :=
  if url ∈ st.processed_youtube then st
  else
    { st with
      processed_youtube := st.processed_youtube ++ [url]
      out_youtube := st.out_youtube ++ [mk_plain_item art url] }

/-- Handling of one soundcloud candidate url, lines 518 to 536. -/
def handle_soundcloud_url (art : Article) (st : RunState) (url : String) : RunState :=
  if url ∈ st.processed_soundcloud then st
  else
    { st with
      processed_soundcloud := st.processed_soundcloud ++ [url]
      out_soundcloud := st.out_soundcloud ++ [mk_plain_item art url] }

/-- Processing of one article: its bandcamp candidates, then youtube, then
soundcloud, in candidate order. -/
def process_article (resolver : String → Option String) (st : RunState)
    (art : Article) : RunState :=
  let st := art.bandcamp_urls.foldl (handle_bandcamp_url resolver art) st
  let st := art.youtube_urls.foldl (handle_youtube_url art) st
  art.soundcloud_urls.foldl (handle_soundcloud_url art) st

/-- The per-feed processing loop over the delivered article sequence. -/
def process_feed (resolver : String → Option String) (articles : List Article) :
    RunState :=
  articles.foldl (process_article resolver) init_run_state

/-! ### Display entries and the merge of generate_feed_html -/

/-- One display entry of the page map, lines 684 to 719 of the source. -/
structure Entry where
  type : String
  url : String
  embed_html : Option String
  title : String
  article_link : String
  author : String
  feed : String
  date : String
  id : Option String
deriving DecidableEq

/-- Conversion of a processed record into a display entry with its kind
tag.  The source reads id with a url default, but every record built by
process_feed carries the id key, so the value is taken as stored. -/
def mk_display_entry (ty : String) (r : RawEmbed) : Entry :=
  { type := ty
    url := r.url
    embed_html := r.embed
    title := r.title
    article_link := r.article_link
    author := r.author
    feed := r.feed
    date := r.date
    id := r.id }

/-- Lexicographic code-point comparison of character lists, the string
comparison python applies to the formatted date keys. -/
def chars_le : List Char → List Char → Bool
  | [], _ => true
  | _ :: _, [] => false
  | c :: cs, d :: ds =>
    if c.toNat < d.toNat then true
    else if d.toNat < c.toNat then false
    else chars_le cs ds

/-- Descending date order used by the sort of line 722: an entry precedes
another when its formatted date string is at least the other one under
python string comparison. -/
def date_ge (a b : Entry) : Prop := chars_le b.date.data a.date.data = true

instance : DecidableRel date_ge := fun a b => by
  unfold date_ge; infer_instance

/-- The merged and sorted entry list of lines 681 to 722: bandcamp entries,
then youtube, then soundcloud, sorted by formatted date descending with a
stable sort (python list sort is stable; insertion sort realizes the same
input-output function). -/
def all_embeds_sorted (bc yt sc : List RawEmbed) : List Entry :=
  let all_embeds :=
    bc.map (mk_display_entry ("bandcamp")) ++
    yt.map (mk_display_entry ("youtube")) ++
    sc.map (mk_display_entry ("soundcloud"))
  all_embeds.insertionSort date_ge

/-! ### Pagination -/

/-- A page map: page numbers with their entry lists, in insertion order.
The source keys pages by the decimal string of the page number; the
embedding keys them by the number itself. -/
abbrev PageMap : Type := List (Nat × List Entry)

/-- The paginator of lines 725 to 732: the ceiling page count, then one
slice of length items_per_page per page, keyed from one. -/
def paginate (items_per_page : Nat) (l : List Entry) : PageMap :=
  let total_pages := (l.length + items_per_page - 1) / items_per_page
  (List.range total_pages).map
    (fun i => (i + 1, (l.drop (i * items_per_page)).take items_per_page))

/-! ### The synchronization engine, sync_feed -/

/-- Counters of one sync invocation. -/
structure SyncStats where
  original : Nat
  kept : Nat
  removed : Nat
deriving DecidableEq

/-- Flattening of a page map in page insertion order then in-page order,
the double loop of lines 172 to 173. -/
def flatten_pages (d : PageMap) : List Entry :=
  (d.map Prod.snd).flatten

/-- The filtering pass of lines 172 to 194: an item with a falsy id (absent
or empty) is kept; an item whose id is listened is removed; every other
item is kept.  Counters are accumulated per item. -/
def filter_listened (listened_ids : List String) :
    List Entry → List Entry × SyncStats
  | [] => ([], ⟨0, 0, 0⟩)
  | item :: rest =>
    let (tail_kept, s) := filter_listened listened_ids rest
    match item.id with
    | none => (item :: tail_kept, ⟨s.original + 1, s.kept + 1, s.removed⟩)
    | some item_id =>
      if item_id = ("") then
        (item :: tail_kept, ⟨s.original + 1, s.kept + 1, s.removed⟩)
      else if item_id ∈ listened_ids then
        (tail_kept, ⟨s.original + 1, s.kept, s.removed + 1⟩)
      else
        (item :: tail_kept, ⟨s.original + 1, s.kept + 1, s.removed⟩)

/-- Page size detection of lines 198 to 205: the default eight, overridden
by the length of the first stored page when that page is nonempty. -/
def detect_items_per_page (d : PageMap) : Nat :=
  match List.head? d with
  | none => 8
  | some (_, first_page_items) =>
    if 0 < first_page_items.length then first_page_items.length else 8

/-- Fuelled chunking, the slicing loop of lines 210 to 214: consecutive
slices of length items_per_page, only nonempty slices produced. -/
def chunk_go (items_per_page : Nat) : Nat → List Entry → List (List Entry)
  | _, [] => []
  | 0, _ :: _ => []
  | fuel + 1, x :: xs =>
    (x :: xs).take items_per_page ::
      chunk_go items_per_page fuel ((x :: xs).drop items_per_page)

/-- Chunking with sufficient fuel. -/
def chunk_list (items_per_page : Nat) (l : List Entry) : List (List Entry) :=
  chunk_go items_per_page l.length l

/-- Sequential page numbering from one, as str of i floor-div size plus one
on line 213. -/
def number_pages (chunks : List (List Entry)) : PageMap :=
  chunks.enumFrom 1

/-- The synchronization of lines 155 to 224: filter the flattened items,
detect the page size, and rechunk into sequentially numbered pages. -/
def sync_feed (pages_data : PageMap) (listened_ids : List String) :
    PageMap × SyncStats :=
  let (all_filtered_items, stats) :=
    filter_listened listened_ids (flatten_pages pages_data)
  let items_per_page := detect_items_per_page pages_data
  (number_pages (chunk_list items_per_page all_filtered_items), stats)

/-- The empty-shell fixup of regenerate_html, lines 265 to 289: a sync
result with zero pages is replaced by a single empty page numbered one. -/
def regenerate_html_pages (synced_pages : PageMap) : PageMap :=
  if List.length synced_pages = 0 then [(1, [])] else synced_pages

/-- The artifact page map written back for a feed: sync_feed followed by
the regenerate_html fixup. -/
def synced_artifact_pages (pages_data : PageMap) (listened_ids : List String) :
    PageMap :=
  regenerate_html_pages (sync_feed pages_data listened_ids).1

/-! ### Auxiliary predicates used by the statements -/

/-- Retention predicate realized by the filtering pass: an entry with an
absent or empty id is kept, an entry with a nonempty listened id is
dropped, every other entry is kept. -/
def keep_entry (listened_ids : List String) (it : Entry) : Bool :=
  match it.id with
  | none => true
  | some s => if s = ("") then true else decide (s ∉ listened_ids)

/-- Contiguity and size discipline of a page map with page size P: keys are
exactly one through the page count in order, every non-final page holds
exactly P entries, and every page is nonempty with at most P entries. -/
def page_map_ok (P : Nat) (pm : PageMap) : Prop :=
  pm.map Prod.fst = List.range' 1 pm.length ∧
  (∀ pg ∈ pm.dropLast, pg.2.length = P) ∧
  (∀ pg ∈ pm, 0 < pg.2.length ∧ pg.2.length ≤ P)

/-- Run-scoped deduplication invariant: the per-kind output url lists and
the resolver log have no duplicates, and each is covered by the matching
processed set. -/
def dedup_inv (st : RunState) : Prop :=
  (st.out_bandcamp.map RawEmbed.url).Nodup ∧
  (∀ u ∈ st.out_bandcamp.map RawEmbed.url, u ∈ st.processed_bandcamp) ∧
  st.resolved_log.Nodup ∧
  (∀ u ∈ st.resolved_log, u ∈ st.processed_bandcamp) ∧
  (st.out_youtube.map RawEmbed.url).Nodup ∧
  (∀ u ∈ st.out_youtube.map RawEmbed.url, u ∈ st.processed_youtube) ∧
  (st.out_soundcloud.map RawEmbed.url).Nodup ∧
  (∀ u ∈ st.out_soundcloud.map RawEmbed.url, u ∈ st.processed_soundcloud)

/-- Every materialized bandcamp record carries the embed markup the
resolver produced for its url, and the extracted id of that markup. -/
def resolved_inv (resolver : String → Option String) (st : RunState) : Prop :=
  ∀ e ∈ st.out_bandcamp, ∃ emb, resolver e.url = some emb ∧
    e.embed = some emb ∧ e.id = extract_bandcamp_id emb

/-- Projection of the run state onto its youtube and soundcloud parts. -/
def ys_proj (st : RunState) :
    List String × List String × List RawEmbed × List RawEmbed :=
  (st.processed_youtube, st.processed_soundcloud, st.out_youtube, st.out_soundcloud)

/-! ### Concrete fixtures for witnesses and counterexamples -/

/-- Entry with a given id, used by concrete checks. -/
def ex_entry (i : Option String) : Entry :=
  { type := ("bandcamp"), url := ("u"), embed_html := none, title := ("t"),
    article_link := ("al"), author := ("au"), feed := ("f"),
    date := ("2024-01-01 10:00"), id := i }

/-- Two-page map with two entries then one entry. -/
def ex_d2 : PageMap :=
  [(1, [ex_entry (some ("x")), ex_entry (some ("y"))]), (2, [ex_entry (some ("z"))])]

/-- Thirteen identical entries, the scenario A dataset size. -/
def ex13 : List Entry := List.replicate 13 (ex_entry none)

/-- Article delivered first, carrying one youtube url. -/
def ex_article_first : Article :=
  { title := ("first article"), link := ("l1"), author := (""), feed_title := (""),
    date := ("2024-01-01 10:00"), bandcamp_urls := [], youtube_urls := [("Y")],
    soundcloud_urls := [] }

/-- Article delivered second, carrying one bandcamp url, same formatted date. -/
def ex_article_second : Article :=
  { title := ("second article"), link := ("l2"), author := (""), feed_title := (""),
    date := ("2024-01-01 10:00"), bandcamp_urls := [("B")], youtube_urls := [],
    soundcloud_urls := [] }

/-- Article with one bandcamp candidate url. -/
def ex_article_bc : Article :=
  { title := ("t"), link := ("l"), author := (""), feed_title := (""),
    date := ("2024-01-01 10:00"),
    bandcamp_urls := [("https://artist.bandcamp.com/album/x")],
    youtube_urls := [], soundcloud_urls := [] }

/-- Article with one bandcamp and one youtube candidate url. -/
def ex_article_both : Article :=
  { title := ("t"), link := ("l"), author := (""), feed_title := (""),
    date := ("2024-01-01 10:00"), bandcamp_urls := [("B")],
    youtube_urls := [("Y")], soundcloud_urls := [] }

/-- Bandcamp page whose only extractable datum is a bare embedded player
iframe with no album or track numeric parameter. -/
def ex_iframe_page : String :=
  ("<iframe src=\"//bandcamp.com/EmbeddedPlayer/x\"></iframe>")

/-- Bandcamp page holding a primary TralbumData block with an album id and,
later, a generic album-equals-digits pattern with a different number. -/
def ex_primary_page : String :=
  ("var TralbumData = \x7b \"album_id\": 111 \x7d; album=123456789")

/-- Fetch oracle for which the first attempt is a connection failure and
every later attempt a terminal 404. -/
def ex_oracle_conn_then_404 : Nat → FetchResult :=
  fun j => if j = 0 then .connError else .httpError 404

/-- Resolver producing fixed markup holding an album numeric parameter. -/
def ex_resolver_ok : String → Option String := fun _ => some (("x album=123 x"))

/-- The record materialized for the fixture article under that resolver. -/
def ex_mk_item : RawEmbed :=
  mk_bandcamp_item ex_article_bc (("https://artist.bandcamp.com/album/x"))
    (("x album=123 x"))

/-! ### Characterization of the filtering pass -/

theorem chars_le_refl : ∀ x : List Char, chars_le x x = true := by
  intro x
  induction x with
  | nil => rfl
  | cons c cs ih => simp [chars_le, ih]

theorem chars_le_total : ∀ x y : List Char, chars_le x y = true ∨ chars_le y x = true := by
  intro x
  induction x with
  | nil => intro y; exact Or.inl rfl
  | cons c cs ih =>
    intro y
    cases y with
    | nil => exact Or.inr rfl
    | cons d ds =>
      by_cases h1 : c.toNat < d.toNat
      · exact Or.inl (by simp [chars_le, h1])
      · by_cases h2 : d.toNat < c.toNat
        · exact Or.inr (by simp [chars_le, h2])
        · rcases ih ds with h | h
          · exact Or.inl (by simp [chars_le, h1, h2, h])
          · exact Or.inr (by simp [chars_le, h1, h2, h])

theorem chars_le_trans : ∀ x y z : List Char,
    chars_le x y = true → chars_le y z = true → chars_le x z = true := by
  intro x
  induction x with
  | nil => intro y z _ _; rfl
  | cons c cs ih =>
    intro y z hxy hyz
    cases y with
    | nil => simp [chars_le] at hxy
    | cons d ds =>
      cases z with
      | nil => simp [chars_le] at hyz
      | cons e es =>
        simp only [chars_le] at hxy hyz ⊢
        by_cases h1 : c.toNat < d.toNat <;> by_cases h2 : d.toNat < e.toNat
        · rw [if_pos (show c.toNat < e.toNat by omega)]
        · rw [if_neg h2] at hyz
          by_cases h3 : e.toNat < d.toNat
          · rw [if_pos h3] at hyz; exact absurd hyz (by simp)
          · rw [if_pos (show c.toNat < e.toNat by omega)]
        · rw [if_neg h1] at hxy
          by_cases h3 : d.toNat < c.toNat
          · rw [if_pos h3] at hxy; exact absurd hxy (by simp)
          · rw [if_pos (show c.toNat < e.toNat by omega)]
        · rw [if_neg h1] at hxy
          by_cases h3 : d.toNat < c.toNat
          · rw [if_pos h3] at hxy; exact absurd hxy (by simp)
          · rw [if_neg h3] at hxy
            rw [if_neg h2] at hyz
            by_cases h4 : e.toNat < d.toNat
            · rw [if_pos h4] at hyz; exact absurd hyz (by simp)
            · rw [if_neg h4] at hyz
              rw [if_neg (show ¬ c.toNat < e.toNat by omega),
                if_neg (show ¬ e.toNat < c.toNat by omega)]
              exact ih ds es hxy hyz

theorem filter_listened_eq (L : List String) (l : List Entry) :
    filter_listened L l =
      (l.filter (keep_entry L),
        ⟨l.length, (l.filter (keep_entry L)).length,
          (l.filter (fun it => !(keep_entry L it))).length⟩) := by
  induction l with
  | nil => rfl
  | cons it rest ih =>
    simp only [filter_listened, ih]
    match h : it.id with
    | none => simp [List.filter, keep_entry, h]
    | some s =>
      by_cases hs : s = ("")
      · simp [List.filter, keep_entry, h, hs]
      · by_cases hm : s ∈ L
        · simp [List.filter, keep_entry, h, hs, hm]
        · simp [List.filter, keep_entry, h, hs, hm]

theorem length_filter_add_length_filter_not (p : Entry → Bool) (l : List Entry) :
    (l.filter p).length + (l.filter (fun a => !(p a))).length = l.length := by
  induction l with
  | nil => rfl
  | cons a l ih =>
    by_cases h : p a
    · simp [List.filter_cons, h, ← ih]; omega
    · simp only [List.filter_cons, h, Bool.not_false, if_pos, if_neg]
      simp [h, ← ih]; omega

theorem detect_items_per_page_pos (d : PageMap) :
    1 ≤ detect_items_per_page d := by
  rcases h : List.head? d with _ | ⟨p, its⟩
  · simp [detect_items_per_page, h]
  · by_cases hl : 0 < its.length
    · simp only [detect_items_per_page, h, hl, if_pos]
      omega
    · simp [detect_items_per_page, h, hl]

/-! ### Chunking lemmas -/

theorem chunk_go_fuel (P : Nat) (hP : 1 ≤ P) :
    ∀ f1 f2 (l : List Entry), l.length ≤ f1 → l.length ≤ f2 →
      chunk_go P f1 l = chunk_go P f2 l := by
  intro f1
  induction f1 with
  | zero =>
    intro f2 l h1 _
    have : l = [] := List.eq_nil_of_length_eq_zero (by omega)
    subst this
    cases f2 <;> rfl
  | succ g ih =>
    intro f2 l h1 h2
    cases l with
    | nil => cases f2 <;> rfl
    | cons x xs =>
      cases f2 with
      | zero => simp at h2
      | succ h =>
        simp only [chunk_go]
        have hd : ((x :: xs).drop P).length ≤ g := by
          simp only [List.length_drop, List.length_cons] at *
          omega
        have hd2 : ((x :: xs).drop P).length ≤ h := by
          simp only [List.length_drop, List.length_cons] at *
          omega
        rw [ih h ((x :: xs).drop P) hd hd2]

theorem chunk_list_cons (P : Nat) (hP : 1 ≤ P) (x : Entry) (xs : List Entry) :
    chunk_list P (x :: xs) =
      (x :: xs).take P :: chunk_list P ((x :: xs).drop P) := by
  show chunk_go P (xs.length + 1) (x :: xs) = _
  simp only [chunk_go]
  rw [chunk_go_fuel P hP xs.length ((x :: xs).drop P).length]
  · rfl
  · simp only [List.length_drop, List.length_cons]; omega
  · exact le_rfl

theorem chunk_go_flatten (P : Nat) (hP : 1 ≤ P) :
    ∀ fuel (l : List Entry), l.length ≤ fuel →
      (chunk_go P fuel l).flatten = l := by
  intro fuel
  induction fuel with
  | zero =>
    intro l h
    have : l = [] := List.eq_nil_of_length_eq_zero (by omega)
    subst this; rfl
  | succ g ih =>
    intro l h
    cases l with
    | nil => rfl
    | cons x xs =>
      simp only [chunk_go, List.flatten_cons]
      rw [ih ((x :: xs).drop P) (by simp only [List.length_drop, List.length_cons] at *; omega)]
      exact List.take_append_drop P (x :: xs)

theorem chunk_list_flatten (P : Nat) (hP : 1 ≤ P) (l : List Entry) :
    (chunk_list P l).flatten = l :=
  chunk_go_flatten P hP l.length l le_rfl

theorem chunk_go_bounds (P : Nat) (hP : 1 ≤ P) :
    ∀ fuel (l : List Entry), ∀ c ∈ chunk_go P fuel l,
      0 < c.length ∧ c.length ≤ P := by
  intro fuel
  induction fuel with
  | zero =>
    intro l c hc
    cases l <;> simp [chunk_go] at hc
  | succ g ih =>
    intro l c hc
    cases l with
    | nil => simp [chunk_go] at hc
    | cons x xs =>
      simp only [chunk_go, List.mem_cons] at hc
      rcases hc with rfl | hc
      · constructor
        · simp only [List.length_take, List.length_cons]
          omega
        · simp only [List.length_take]
          omega
      · exact ih _ c hc

theorem chunk_go_ne_nil (P : Nat) (fuel : Nat) (x : Entry) (xs : List Entry) :
    chunk_go P (fuel + 1) (x :: xs) ≠ [] := by
  simp [chunk_go]

theorem chunk_go_dropLast (P : Nat) (hP : 1 ≤ P) :
    ∀ fuel (l : List Entry), l.length ≤ fuel →
      ∀ c ∈ (chunk_go P fuel l).dropLast, c.length = P := by
  intro fuel
  induction fuel with
  | zero =>
    intro l h c hc
    have : l = [] := List.eq_nil_of_length_eq_zero (by omega)
    subst this; simp [chunk_go] at hc
  | succ g ih =>
    intro l h c hc
    cases l with
    | nil => simp [chunk_go] at hc
    | cons x xs =>
      simp only [chunk_go] at hc
      rcases hdrop : (x :: xs).drop P with _ | ⟨y, ys⟩
      · rw [hdrop] at hc
        cases g <;> simp [chunk_go] at hc
      · have hlen : P < (x :: xs).length := by
          by_contra hle
          have : (x :: xs).drop P = [] := List.drop_eq_nil_of_le (by omega)
          rw [this] at hdrop; exact List.noConfusion hdrop
        have hg : 1 ≤ g := by
          have := congrArg List.length hdrop
          simp only [List.length_drop] at this
          simp only [List.length_cons] at *
          omega
        obtain ⟨g', rfl⟩ : ∃ g', g = g' + 1 := ⟨g - 1, by omega⟩
        rw [hdrop] at hc
        rw [List.dropLast_cons_of_ne_nil (chunk_go_ne_nil P g' y ys)] at hc
        rcases List.mem_cons.mp hc with rfl | hc
        · simp only [List.length_take]
          omega
        · refine ih (y :: ys) ?_ c hc
          have := congrArg List.length hdrop
          simp only [List.length_drop] at this
          simp only [List.length_cons] at *
          omega

/-! ### Page numbering lemmas -/

theorem enumFrom_shift {α : Type} (L : List α) :
    ∀ n, List.enumFrom (n + 1) L = (List.enumFrom n L).map (fun p => (p.1 + 1, p.2)) := by
  induction L with
  | nil => intro n; rfl
  | cons a t ih =>
    intro n
    simp only [List.enumFrom_cons, List.map_cons, ih (n + 1)]

theorem enumFrom_dropLast {α : Type} (L : List α) :
    ∀ n, (List.enumFrom n L).dropLast = List.enumFrom n L.dropLast := by
  induction L with
  | nil => intro n; rfl
  | cons a t ih =>
    intro n
    cases t with
    | nil => rfl
    | cons b t2 =>
      rw [List.enumFrom_cons,
        List.dropLast_cons_of_ne_nil
          (show List.enumFrom (n + 1) (b :: t2) ≠ [] by
            rw [List.enumFrom_cons]; exact List.cons_ne_nil _ _),
        ih (n + 1),
        show (a :: b :: t2).dropLast = a :: (b :: t2).dropLast from
          List.dropLast_cons_of_ne_nil (List.cons_ne_nil _ _),
        List.enumFrom_cons]

theorem snd_mem_enumFrom {α : Type} (L : List α) :
    ∀ n p, p ∈ List.enumFrom n L → p.2 ∈ L := by
  induction L with
  | nil => intro n p h; simp [List.enumFrom] at h
  | cons a t ih =>
    intro n p h
    simp only [List.enumFrom_cons, List.mem_cons] at h
    rcases h with rfl | h
    · simp
    · exact List.mem_cons_of_mem a (ih (n + 1) p h)

theorem number_pages_map_fst (L : List (List Entry)) :
    (number_pages L).map Prod.fst = List.range' 1 L.length :=
  List.enumFrom_map_fst 1 L

theorem number_pages_map_snd (L : List (List Entry)) :
    (number_pages L).map Prod.snd = L :=
  List.enumFrom_map_snd 1 L

theorem flatten_number_pages (L : List (List Entry)) :
    flatten_pages (number_pages L) = L.flatten := by
  unfold flatten_pages
  rw [number_pages_map_snd]

theorem number_pages_length (L : List (List Entry)) :
    (number_pages L).length = L.length := by
  have := congrArg List.length (number_pages_map_snd L)
  simpa using this

/-! ### Pagination equals chunking -/

theorem pages_count_succ (P n : Nat) (hP : 1 ≤ P) (hn : 1 ≤ n) :
    (n + P - 1) / P = (n - 1) / P + 1 := by
  have h : n + P - 1 = (n - 1) + P := by omega
  rw [h, Nat.add_div_right _ (by omega)]

theorem pages_count_tail (P n : Nat) (hP : 1 ≤ P) (hn : 1 ≤ n) :
    ((n - P) + P - 1) / P = (n - 1) / P := by
  by_cases h : n ≤ P
  · have h1 : n - P = 0 := by omega
    rw [h1]
    rw [Nat.div_eq_of_lt (by omega), Nat.div_eq_of_lt (by omega)]
  · have h1 : (n - P) + P - 1 = n - 1 := by omega
    rw [h1]

theorem paginate_eq_aux (P : Nat) (hP : 1 ≤ P) :
    ∀ fuel (l : List Entry), l.length ≤ fuel →
      paginate P l = number_pages (chunk_go P fuel l) := by
  intro fuel
  induction fuel with
  | zero =>
    intro l h
    have : l = [] := List.eq_nil_of_length_eq_zero (by omega)
    subst this
    simp [paginate, number_pages, chunk_go, Nat.div_eq_of_lt (show P - 1 < P by omega)]
  | succ g ih =>
    intro l h
    cases l with
    | nil =>
      simp [paginate, number_pages, chunk_go, Nat.div_eq_of_lt (show P - 1 < P by omega)]
    | cons x xs =>
      have hn : 1 ≤ (x :: xs).length := by simp
      have hcount : ((x :: xs).length + P - 1) / P = ((x :: xs).length - 1) / P + 1 :=
        pages_count_succ P _ hP hn
      have hdl : ((x :: xs).drop P).length ≤ g := by
        simp only [List.length_drop, List.length_cons] at *
        omega
      have htail := ih ((x :: xs).drop P) hdl
      simp only [paginate] at htail ⊢
      rw [hcount, List.range_succ_eq_map, List.map_cons, List.map_map]
      have hM : (((x :: xs).drop P).length + P - 1) / P = ((x :: xs).length - 1) / P := by
        rw [List.length_drop]
        exact pages_count_tail P _ hP hn
      rw [hM] at htail
      simp only [chunk_go, number_pages, List.enumFrom_cons]
      congr 1
      · simp
      · rw [enumFrom_shift]
        rw [show List.enumFrom 1 (chunk_go P g ((x :: xs).drop P)) =
          number_pages (chunk_go P g ((x :: xs).drop P)) from rfl]
        rw [← htail]
        rw [List.map_map]
        apply List.map_congr_left
        intro i _
        simp only [Function.comp_apply]
        rw [List.drop_drop]
        have hm : i.succ * P = P + i * P := by rw [Nat.succ_mul]; omega
        rw [hm]

theorem paginate_eq_chunk (P : Nat) (hP : 1 ≤ P) (l : List Entry) :
    paginate P l = number_pages (chunk_list P l) :=
  paginate_eq_aux P hP l.length l le_rfl

/-! ### Stability of the date sort -/

theorem filter_orderedInsert_neg (p : Entry → Bool) (x : Entry) (hx : p x = false) :
    ∀ l, (List.orderedInsert date_ge x l).filter p = l.filter p := by
  intro l
  induction l with
  | nil => simp [List.orderedInsert, List.filter, hx]
  | cons y t ih =>
    by_cases h : date_ge x y
    · simp [List.orderedInsert, h, List.filter_cons, hx]
    · simp only [List.orderedInsert, if_neg h, List.filter_cons, ih]

theorem filter_orderedInsert_date (dt : String) (x : Entry) (hx : x.date = dt) :
    ∀ l, (List.orderedInsert date_ge x l).filter (fun e => e.date == dt) =
      x :: l.filter (fun e => e.date == dt) := by
  intro l
  induction l with
  | nil => simp [List.orderedInsert, List.filter, hx]
  | cons y t ih =>
    by_cases h : date_ge x y
    · simp only [List.orderedInsert, if_pos h, List.filter_cons]
      simp [hx]
    · have hy : ¬(y.date == dt) = true := by
        simp only [beq_iff_eq]
        intro hdt
        apply h
        unfold date_ge
        rw [hdt, hx]
        exact chars_le_refl _
      simp only [List.orderedInsert, if_neg h, List.filter_cons]
      rw [if_neg hy, if_neg hy, ih]

theorem insertionSort_filter_date (dt : String) :
    ∀ l : List Entry,
      (l.insertionSort date_ge).filter (fun e => e.date == dt) =
        l.filter (fun e => e.date == dt) := by
  intro l
  induction l with
  | nil => rfl
  | cons x t ih =>
    show (List.orderedInsert date_ge x (t.insertionSort date_ge)).filter _ = _
    by_cases hx : x.date = dt
    · rw [filter_orderedInsert_date dt x hx, ih, List.filter_cons,
        if_pos (by simpa using hx)]
    · rw [filter_orderedInsert_neg _ x (by simpa using hx), ih, List.filter_cons,
        if_neg (by simpa using hx)]

/-! ### Page map well-formedness -/

theorem number_chunk_ok (P : Nat) (hP : 1 ≤ P) (items : List Entry) :
    page_map_ok P (number_pages (chunk_list P items)) := by
  refine ⟨?_, ?_, ?_⟩
  · rw [number_pages_map_fst, number_pages_length]
  · intro pg hpg
    unfold number_pages at hpg
    rw [enumFrom_dropLast] at hpg
    have h2 := snd_mem_enumFrom _ _ _ hpg
    exact chunk_go_dropLast P hP items.length items le_rfl pg.2 h2
  · intro pg hpg
    have h2 := snd_mem_enumFrom _ _ _ hpg
    exact chunk_go_bounds P hP items.length items pg.2 h2

/-! ### Sync characterization -/

theorem sync_feed_fst (d : PageMap) (L : List String) :
    (sync_feed d L).1 =
      number_pages (chunk_list (detect_items_per_page d)
        ((flatten_pages d).filter (keep_entry L))) := by
  simp [sync_feed, filter_listened_eq]

theorem sync_feed_snd (d : PageMap) (L : List String) :
    (sync_feed d L).2 =
      ⟨(flatten_pages d).length,
        ((flatten_pages d).filter (keep_entry L)).length,
        ((flatten_pages d).filter (fun it => !(keep_entry L it))).length⟩ := by
  simp [sync_feed, filter_listened_eq]

theorem flatten_sync_feed (d : PageMap) (L : List String) :
    flatten_pages (sync_feed d L).1 = (flatten_pages d).filter (keep_entry L) := by
  rw [sync_feed_fst, flatten_number_pages,
    chunk_list_flatten _ (detect_items_per_page_pos d)]

/-! ### Fold invariants for the processing loop -/

theorem foldl_inv {σ τ : Type} (f : σ → τ → σ) (P : σ → Prop)
    (h : ∀ s a, P s → P (f s a)) :
    ∀ (l : List τ) (s : σ), P s → P (l.foldl f s) := by
  intro l
  induction l with
  | nil => intro s hs; exact hs
  | cons a t ih => intro s hs; exact ih _ (h s a hs)

theorem nodup_append_singleton {l : List String} {u : String}
    (hn : l.Nodup) (hu : u ∉ l) : (l ++ [u]).Nodup := by
  refine List.Nodup.append hn (List.nodup_singleton u) ?_
  intro a ha hb
  simp only [List.mem_singleton] at hb
  subst hb
  exact hu ha

theorem handle_bandcamp_url_dedup (resolver : String → Option String)
    (art : Article) (st : RunState) (u : String) (h : dedup_inv st) :
    dedup_inv (handle_bandcamp_url resolver art st u) := by
  obtain ⟨h1, h2, h3, h4, h5, h6, h7, h8⟩ := h
  unfold handle_bandcamp_url
  by_cases hmem : u ∈ st.processed_bandcamp
  · simpa [hmem] using ⟨h1, h2, h3, h4, h5, h6, h7, h8⟩
  · have hlog : u ∉ st.resolved_log := fun hm => hmem (h4 u hm)
    have hout : u ∉ st.out_bandcamp.map RawEmbed.url := fun hm => hmem (h2 u hm)
    rw [if_neg hmem]
    cases hres : resolver u with
    | none =>
      refine ⟨h1, ?_, nodup_append_singleton h3 hlog, ?_, h5, h6, h7, h8⟩
      · intro v hv
        simp only [List.mem_append, List.mem_singleton]
        exact Or.inl (h2 v hv)
      · intro v hv
        simp only [List.mem_append, List.mem_singleton] at hv ⊢
        rcases hv with hv | rfl
        · exact Or.inl (h4 v hv)
        · exact Or.inr rfl
    | some emb =>
      refine ⟨?_, ?_, nodup_append_singleton h3 hlog, ?_, h5, h6, h7, h8⟩
      · rw [List.map_append]
        exact nodup_append_singleton h1 hout
      · intro v hv
        rw [List.map_append] at hv
        simp only [List.mem_append, List.mem_singleton] at hv ⊢
        rcases hv with hv | hv
        · exact Or.inl (h2 v hv)
        · simp only [List.map_cons, List.map_nil, List.mem_cons,
            List.not_mem_nil, or_false] at hv
          exact Or.inr (by simp [hv, mk_bandcamp_item])
      · intro v hv
        simp only [List.mem_append, List.mem_singleton] at hv ⊢
        rcases hv with hv | rfl
        · exact Or.inl (h4 v hv)
        · exact Or.inr rfl

theorem handle_youtube_url_dedup (art : Article) (st : RunState) (u : String)
    (h : dedup_inv st) : dedup_inv (handle_youtube_url art st u) := by
  obtain ⟨h1, h2, h3, h4, h5, h6, h7, h8⟩ := h
  unfold handle_youtube_url
  by_cases hmem : u ∈ st.processed_youtube
  · simpa [hmem] using ⟨h1, h2, h3, h4, h5, h6, h7, h8⟩
  · have hout : u ∉ st.out_youtube.map RawEmbed.url := fun hm => hmem (h6 u hm)
    rw [if_neg hmem]
    refine ⟨h1, h2, h3, h4, ?_, ?_, h7, h8⟩
    · rw [List.map_append]
      exact nodup_append_singleton h5 hout
    · intro v hv
      rw [List.map_append] at hv
      simp only [List.mem_append, List.mem_singleton] at hv ⊢
      rcases hv with hv | hv
      · exact Or.inl (h6 v hv)
      · simp only [List.map_cons, List.map_nil, List.mem_cons,
          List.not_mem_nil, or_false] at hv
        exact Or.inr (by simp [hv, mk_plain_item])

theorem handle_soundcloud_url_dedup (art : Article) (st : RunState) (u : String)
    (h : dedup_inv st) : dedup_inv (handle_soundcloud_url art st u) := by
  obtain ⟨h1, h2, h3, h4, h5, h6, h7, h8⟩ := h
  unfold handle_soundcloud_url
  by_cases hmem : u ∈ st.processed_soundcloud
  · simpa [hmem] using ⟨h1, h2, h3, h4, h5, h6, h7, h8⟩
  · have hout : u ∉ st.out_soundcloud.map RawEmbed.url := fun hm => hmem (h8 u hm)
    rw [if_neg hmem]
    refine ⟨h1, h2, h3, h4, h5, h6, ?_, ?_⟩
    · rw [List.map_append]
      exact nodup_append_singleton h7 hout
    · intro v hv
      rw [List.map_append] at hv
      simp only [List.mem_append, List.mem_singleton] at hv ⊢
      rcases hv with hv | hv
      · exact Or.inl (h8 v hv)
      · simp only [List.map_cons, List.map_nil, List.mem_cons,
          List.not_mem_nil, or_false] at hv
        exact Or.inr (by simp [hv, mk_plain_item])

theorem process_article_dedup (resolver : String → Option String)
    (st : RunState) (art : Article) (h : dedup_inv st) :
    dedup_inv (process_article resolver st art) := by
  unfold process_article
  apply foldl_inv _ _ (fun s a hs => handle_soundcloud_url_dedup art s a hs)
  apply foldl_inv _ _ (fun s a hs => handle_youtube_url_dedup art s a hs)
  apply foldl_inv _ _ (fun s a hs => handle_bandcamp_url_dedup resolver art s a hs)
  exact h

theorem process_feed_dedup (resolver : String → Option String)
    (articles : List Article) : dedup_inv (process_feed resolver articles) := by
  unfold process_feed
  apply foldl_inv _ _ (fun s a hs => process_article_dedup resolver s a hs)
  refine ⟨List.nodup_nil, ?_, List.nodup_nil, ?_, List.nodup_nil, ?_,
    List.nodup_nil, ?_⟩ <;> intro v hv <;> simp [init_run_state] at hv

/-! ### Resolution invariant for materialized bandcamp entries -/

theorem handle_bandcamp_url_resolved (resolver : String → Option String)
    (art : Article) (st : RunState) (u : String)
    (h : resolved_inv resolver st) :
    resolved_inv resolver (handle_bandcamp_url resolver art st u) := by
  unfold handle_bandcamp_url
  by_cases hmem : u ∈ st.processed_bandcamp
  · simpa [hmem] using h
  · rw [if_neg hmem]
    cases hres : resolver u with
    | none => exact h
    | some emb =>
      intro e he
      simp only [List.mem_append, List.mem_singleton] at he
      rcases he with he | rfl
      · exact h e he
      · exact ⟨emb, by simp [mk_bandcamp_item, hres]⟩

theorem handle_youtube_url_resolved (resolver : String → Option String)
    (art : Article) (st : RunState) (u : String)
    (h : resolved_inv resolver st) :
    resolved_inv resolver (handle_youtube_url art st u) := by
  unfold handle_youtube_url
  by_cases hmem : u ∈ st.processed_youtube
  · simpa [hmem] using h
  · rw [if_neg hmem]
    exact h

theorem handle_soundcloud_url_resolved (resolver : String → Option String)
    (art : Article) (st : RunState) (u : String)
    (h : resolved_inv resolver st) :
    resolved_inv resolver (handle_soundcloud_url art st u) := by
  unfold handle_soundcloud_url
  by_cases hmem : u ∈ st.processed_soundcloud
  · simpa [hmem] using h
  · rw [if_neg hmem]
    exact h

theorem process_feed_resolved (resolver : String → Option String)
    (articles : List Article) :
    resolved_inv resolver (process_feed resolver articles) := by
  unfold process_feed
  apply foldl_inv _ _ (fun s a hs => ?_)
  · intro e he
    simp [init_run_state] at he
  · unfold process_article
    apply foldl_inv _ _ (fun s2 a2 hs2 => handle_soundcloud_url_resolved resolver a s2 a2 hs2)
    apply foldl_inv _ _ (fun s2 a2 hs2 => handle_youtube_url_resolved resolver a s2 a2 hs2)
    apply foldl_inv _ _ (fun s2 a2 hs2 => handle_bandcamp_url_resolved resolver a s2 a2 hs2)
    exact hs

/-! ### Independence of the youtube and soundcloud outputs from the resolver -/

theorem handle_bandcamp_url_ys (resolver : String → Option String)
    (art : Article) (st : RunState) (u : String) :
    ys_proj (handle_bandcamp_url resolver art st u) = ys_proj st := by
  unfold handle_bandcamp_url
  by_cases hmem : u ∈ st.processed_bandcamp
  · rw [if_pos hmem]
  · rw [if_neg hmem]
    cases resolver u <;> rfl

theorem handle_youtube_url_ys (art : Article) (u : String) (st1 st2 : RunState)
    (h : ys_proj st1 = ys_proj st2) :
    ys_proj (handle_youtube_url art st1 u) = ys_proj (handle_youtube_url art st2 u) := by
  unfold ys_proj at h
  simp only [Prod.mk.injEq] at h
  obtain ⟨e1, e2, e3, e4⟩ := h
  unfold handle_youtube_url
  by_cases hmem : u ∈ st1.processed_youtube
  · rw [if_pos hmem, if_pos (e1 ▸ hmem)]
    exact Prod.ext e1 (Prod.ext e2 (Prod.ext e3 e4))
  · rw [if_neg hmem, if_neg (fun hm => hmem (e1 ▸ hm))]
    simp only [ys_proj, e1, e2, e3, e4]

theorem handle_soundcloud_url_ys (art : Article) (u : String) (st1 st2 : RunState)
    (h : ys_proj st1 = ys_proj st2) :
    ys_proj (handle_soundcloud_url art st1 u) =
      ys_proj (handle_soundcloud_url art st2 u) := by
  unfold ys_proj at h
  simp only [Prod.mk.injEq] at h
  obtain ⟨e1, e2, e3, e4⟩ := h
  unfold handle_soundcloud_url
  by_cases hmem : u ∈ st1.processed_soundcloud
  · rw [if_pos hmem, if_pos (e2 ▸ hmem)]
    exact Prod.ext e1 (Prod.ext e2 (Prod.ext e3 e4))
  · rw [if_neg hmem, if_neg (fun hm => hmem (e2 ▸ hm))]
    simp only [ys_proj, e1, e2, e3, e4]

theorem foldl_ys_eq (f1 f2 : RunState → String → RunState)
    (hf : ∀ s1 s2 u, ys_proj s1 = ys_proj s2 → ys_proj (f1 s1 u) = ys_proj (f2 s2 u)) :
    ∀ (l : List String) (s1 s2 : RunState), ys_proj s1 = ys_proj s2 →
      ys_proj (l.foldl f1 s1) = ys_proj (l.foldl f2 s2) := by
  intro l
  induction l with
  | nil => intro s1 s2 h; exact h
  | cons u t ih => intro s1 s2 h; exact ih _ _ (hf s1 s2 u h)

theorem process_article_ys (r1 r2 : String → Option String) (art : Article)
    (st1 st2 : RunState) (h : ys_proj st1 = ys_proj st2) :
    ys_proj (process_article r1 st1 art) = ys_proj (process_article r2 st2 art) := by
  unfold process_article
  apply foldl_ys_eq _ _ (fun s1 s2 u hs => handle_soundcloud_url_ys art u s1 s2 hs)
  apply foldl_ys_eq _ _ (fun s1 s2 u hs => handle_youtube_url_ys art u s1 s2 hs)
  apply foldl_ys_eq _ _ (fun s1 s2 u hs => ?_)
  · exact h
  · rw [handle_bandcamp_url_ys, handle_bandcamp_url_ys]
    exact hs

theorem process_feed_ys (r1 r2 : String → Option String) (articles : List Article) :
    ys_proj (process_feed r1 articles) = ys_proj (process_feed r2 articles) := by
  unfold process_feed
  have : ∀ (l : List Article) (s1 s2 : RunState), ys_proj s1 = ys_proj s2 →
      ys_proj (l.foldl (process_article r1) s1) =
        ys_proj (l.foldl (process_article r2) s2) := by
    intro l
    induction l with
    | nil => intro s1 s2 h; exact h
    | cons a t ih => intro s1 s2 h; exact ih _ _ (process_article_ys r1 r2 a s1 s2 h)
  exact this articles init_run_state init_run_state rfl

/-! ### Retry loop lemmas -/

theorem get_bandcamp_embed_from_404 (oracle : Nat → FetchResult) :
    ∀ (fuel a k : Nat), k < fuel →
      (∀ j, j < k → RetryableFailure (oracle (a + j))) →
      oracle (a + k) = .httpError 404 →
      get_bandcamp_embed_from oracle a fuel = (none, (a + k) + 1) := by
  intro fuel
  induction fuel with
  | zero => intro a k hk; omega
  | succ g ih =>
    intro a k hk hr h404
    cases k with
    | zero =>
      simp only [Nat.add_zero] at h404
      simp [get_bandcamp_embed_from, h404]
    | succ k2 =>
      have h0 := hr 0 (Nat.succ_pos k2)
      rcases h0 with ⟨code, hc, hco⟩ | hco
      · rw [Nat.add_zero] at hco
        have : ¬ code = 404 := by omega
        simp only [get_bandcamp_embed_from, hco, if_neg this]
        have := ih (a + 1) k2 (by omega)
          (fun j hj => by
            have := hr (j + 1) (by omega)
            rwa [show a + (j + 1) = a + 1 + j by omega] at this)
          (by rwa [show a + 1 + k2 = a + (k2 + 1) by omega])
        rwa [show a + 1 + k2 = a + (k2 + 1) by omega] at this
      · rw [Nat.add_zero] at hco
        simp only [get_bandcamp_embed_from, hco]
        have := ih (a + 1) k2 (by omega)
          (fun j hj => by
            have := hr (j + 1) (by omega)
            rwa [show a + (j + 1) = a + 1 + j by omega] at this)
          (by rwa [show a + 1 + k2 = a + (k2 + 1) by omega])
        rwa [show a + 1 + k2 = a + (k2 + 1) by omega] at this

theorem get_bandcamp_embed_from_exhaust (oracle : Nat → FetchResult) :
    ∀ (fuel a : Nat),
      (∀ j, j < fuel → RetryableFailure (oracle (a + j))) →
      get_bandcamp_embed_from oracle a fuel = (none, a + fuel) := by
  intro fuel
  induction fuel with
  | zero => intro a _; rfl
  | succ g ih =>
    intro a hr
    have h0 := hr 0 (Nat.succ_pos g)
    rcases h0 with ⟨code, hc, hco⟩ | hco
    · rw [Nat.add_zero] at hco
      have : ¬ code = 404 := by omega
      simp only [get_bandcamp_embed_from, hco, if_neg this]
      have := ih (a + 1) (fun j hj => by
        have := hr (j + 1) (by omega)
        rwa [show a + (j + 1) = a + 1 + j by omega] at this)
      rwa [show a + 1 + g = a + (g + 1) by omega] at this
    · rw [Nat.add_zero] at hco
      simp only [get_bandcamp_embed_from, hco]
      have := ih (a + 1) (fun j hj => by
        have := hr (j + 1) (by omega)
        rwa [show a + (j + 1) = a + 1 + j by omega] at this)
      rwa [show a + 1 + g = a + (g + 1) by omega] at this

/-! ### The claims -/

/-- Claim C1: for every input page map and listened set under which every
entry is removed (the retained list is empty), the sync operation writes
back a page map holding exactly one page, numbered one, with an empty
list, never zero pages. -/
theorem claimC1 (d : PageMap) (L : List String)
    (h : (filter_listened L (flatten_pages d)).1 = []) :
    synced_artifact_pages d L = [(1, [])] := by
  have h2 : (flatten_pages d).filter (keep_entry L) = [] := by
    rw [filter_listened_eq] at h
    exact h
  unfold synced_artifact_pages regenerate_html_pages
  rw [sync_feed_fst, h2]
  rfl

/-- Witness for claim C1 on a one-page map whose single entry is listened. -/
theorem claimC1_witness :
    (filter_listened [("a")] (flatten_pages [(1, [ex_entry (some ("a"))])])).1 = [] ∧
    synced_artifact_pages [(1, [ex_entry (some ("a"))])] [("a")] = [(1, [])] :=
  ⟨by decide, claimC1 [(1, [ex_entry (some ("a"))])] [("a")] (by decide)⟩

/-- Counterexample to claim C2 as stated: on the nonempty page map whose
page numbered one is empty (the scenario B shell), the effective page size
falls back to eight although the input page map is not empty and page one
holds zero entries. -/
theorem claimC2_counterexample :
    ([(1, ([] : List Entry))] : PageMap) ≠ [] ∧
    detect_items_per_page [(1, ([] : List Entry))] = 8 ∧
    detect_items_per_page [(1, ([] : List Entry))] ≠ ([] : List Entry).length := by
  refine ⟨by decide, rfl, by decide⟩

/-- Claim C2 as amended: the effective page size used for re-chunking
equals the number of entries in the first stored page when that page is
nonempty; it falls back to the configured default of eight when the input
page map is empty or its first stored page is empty. -/
theorem claimC2 (d : PageMap) (L : List String) :
    (∀ p0 its, List.head? d = some (p0, its) → its ≠ [] →
      detect_items_per_page d = its.length ∧
      ∀ pg ∈ ((sync_feed d L).1).dropLast, pg.2.length = its.length) ∧
    ((d = [] ∨ ∃ p0, List.head? d = some (p0, ([] : List Entry))) →
      detect_items_per_page d = 8 ∧
      ∀ pg ∈ ((sync_feed d L).1).dropLast, pg.2.length = 8) := by
  have hbase : ∀ pg ∈ ((sync_feed d L).1).dropLast,
      pg.2.length = detect_items_per_page d := by
    rw [sync_feed_fst]
    exact (number_chunk_ok _ (detect_items_per_page_pos d) _).2.1
  constructor
  · intro p0 its hh hne
    have hpos : 0 < its.length := List.length_pos.mpr hne
    have hd : detect_items_per_page d = its.length := by
      simp [detect_items_per_page, hh, hpos]
    exact ⟨hd, fun pg hpg => by rw [hbase pg hpg, hd]⟩
  · intro hcase
    have hd : detect_items_per_page d = 8 := by
      rcases hcase with rfl | ⟨p0, hh⟩
      · rfl
      · simp [detect_items_per_page, hh]
    exact ⟨hd, fun pg hpg => by rw [hbase pg hpg, hd]⟩

/-- Witness for claim C2 on a map whose first page holds two entries. -/
theorem claimC2_witness :
    detect_items_per_page ex_d2 = 2 ∧
    ∀ pg ∈ ((sync_feed ex_d2 []).1).dropLast, pg.2.length = 2 :=
  (claimC2 ex_d2 []).1 1 [ex_entry (some ("x")), ex_entry (some ("y"))] rfl (by decide)

/-- Claim C3: sync is idempotent; applying sync a second time with the same
listened set removes nothing further, and the entry content agrees modulo
the re-normalized page numbering. -/
theorem claimC3 (d : PageMap) (L : List String) :
    (sync_feed (sync_feed d L).1 L).2.removed = 0 ∧
    flatten_pages (sync_feed (sync_feed d L).1 L).1 =
      flatten_pages (sync_feed d L).1 := by
  have hnil : ∀ l : List Entry,
      (l.filter (keep_entry L)).filter (fun a => !(keep_entry L a)) = [] := by
    intro l
    rw [List.filter_filter]
    apply List.filter_eq_nil_iff.mpr
    intro a _
    cases keep_entry L a <;> simp
  constructor
  · rw [sync_feed_snd, flatten_sync_feed, hnil]
    rfl
  · rw [flatten_sync_feed, flatten_sync_feed, List.filter_filter]
    simp only [Bool.and_self]

/-- Claim C4: every page map produced by the paginator or by the sync
engine has keys exactly one through its page count with no gaps, only its
final page may hold fewer than the page size, and no page is empty. -/
theorem claimC4 (P : Nat) (l : List Entry) (d : PageMap) (L : List String)
    (hP : 1 ≤ P) :
    page_map_ok P (paginate P l) ∧
    page_map_ok (detect_items_per_page d) ((sync_feed d L).1) := by
  constructor
  · rw [paginate_eq_chunk P hP]
    exact number_chunk_ok P hP l
  · rw [sync_feed_fst]
    exact number_chunk_ok _ (detect_items_per_page_pos d) _

/-- Witness for claim C4 at page size eight over thirteen entries. -/
theorem claimC4_witness :
    page_map_ok 8 (paginate 8 ex13) ∧
    page_map_ok (detect_items_per_page ex_d2) ((sync_feed ex_d2 []).1) :=
  claimC4 8 ex13 ex_d2 [] (by decide)

/-- Counterexample to claim C5 as stated: an entry whose display id is the
empty string and whose id is in the listened set is kept, not removed, by
the sync pass. -/
theorem claimC5_counterexample :
    (ex_entry (some (""))).id = some ("") ∧
    ("") ∈ [("")] ∧
    (sync_feed [(1, [ex_entry (some (""))])] [("")]).2.removed = 0 ∧
    (sync_feed [(1, [ex_entry (some (""))])] [("")]).2.kept = 1 := by
  refine ⟨rfl, by decide, by decide, by decide⟩

/-- Claim C5 as amended: each flattened entry is classified exactly once;
an entry with an absent or empty display id is retained unconditionally
and counted kept, an entry with a nonempty display id in the listened set
is dropped and counted removed, every other entry is retained and counted
kept, and kept plus removed equals original. -/
theorem claimC5 (d : PageMap) (L : List String) :
    (sync_feed d L).2.original = (flatten_pages d).length ∧
    (sync_feed d L).2.kept = ((flatten_pages d).filter (keep_entry L)).length ∧
    (sync_feed d L).2.removed =
      ((flatten_pages d).filter (fun it => !(keep_entry L it))).length ∧
    (sync_feed d L).2.kept + (sync_feed d L).2.removed = (sync_feed d L).2.original ∧
    flatten_pages ((sync_feed d L).1) = (flatten_pages d).filter (keep_entry L) := by
  refine ⟨?_, ?_, ?_, ?_, flatten_sync_feed d L⟩
  · rw [sync_feed_snd]
  · rw [sync_feed_snd]
  · rw [sync_feed_snd]
  · rw [sync_feed_snd]
    exact length_filter_add_length_filter_not _ _

/-- Claim C6: an http 404 is terminal for the resolution of a url, with no
further attempt; server errors and connection errors are retryable and
consume one attempt each; after the retry budget is exhausted the
resolution fails softly: the candidate is never materialized and the
youtube and soundcloud outputs of the run do not depend on the resolver. -/
theorem claimC6 (oracle : Nat → FetchResult) (R k : Nat)
    (resolver : String → Option String) (articles : List Article) (u : String) :
    (k < R → (∀ j, j < k → RetryableFailure (oracle j)) →
      oracle k = .httpError 404 →
      get_bandcamp_embed_run oracle R = (none, k + 1)) ∧
    ((∀ j, j < R → RetryableFailure (oracle j)) →
      get_bandcamp_embed_run oracle R = (none, R)) ∧
    (resolver u = none →
      ∀ e ∈ (process_feed resolver articles).out_bandcamp, e.url ≠ u) ∧
    (∀ resolver2,
      (process_feed resolver articles).out_youtube =
        (process_feed resolver2 articles).out_youtube ∧
      (process_feed resolver articles).out_soundcloud =
        (process_feed resolver2 articles).out_soundcloud) := by
  refine ⟨?_, ?_, ?_, ?_⟩
  · intro hk hr h404
    have := get_bandcamp_embed_from_404 oracle R 0 k hk
      (fun j hj => by simpa using hr j hj) (by simpa using h404)
    simpa [get_bandcamp_embed_run] using this
  · intro hr
    have := get_bandcamp_embed_from_exhaust oracle R 0
      (fun j hj => by simpa using hr j hj)
    simpa [get_bandcamp_embed_run] using this
  · intro hnone e he heq
    obtain ⟨emb, hre, _, _⟩ := process_feed_resolved resolver articles e he
    rw [heq, hnone] at hre
    exact Option.noConfusion hre
  · intro resolver2
    have h := process_feed_ys resolver resolver2 articles
    unfold ys_proj at h
    simp only [Prod.mk.injEq] at h
    exact ⟨h.2.2.1, h.2.2.2⟩

/-- Witness for claim C6: a connection failure then a 404 stop after the
second attempt; pure retryable failures exhaust the budget; a failing
resolver materializes nothing for its url while the youtube output of the
same run is unchanged. -/
theorem claimC6_witness :
    get_bandcamp_embed_run ex_oracle_conn_then_404 2 = (none, 2) ∧
    get_bandcamp_embed_run (fun _ => FetchResult.connError) 3 = (none, 3) ∧
    (∀ e ∈ (process_feed (fun _ => none) [ex_article_both]).out_bandcamp,
      e.url ≠ ("B")) ∧
    (process_feed (fun _ => none) [ex_article_both]).out_youtube =
      (process_feed (fun _ => some (("E"))) [ex_article_both]).out_youtube := by
  refine ⟨?_, ?_, ?_, ?_⟩
  · exact (claimC6 ex_oracle_conn_then_404 2 1 (fun _ => none) [] ("")).1
      (by decide)
      (fun j hj => by
        have : j = 0 := by omega
        subst this
        exact Or.inr rfl)
      (by decide)
  · exact (claimC6 (fun _ => FetchResult.connError) 3 0 (fun _ => none) [] ("")).2.1
      (fun j hj => Or.inr rfl)
  · exact (claimC6 (fun _ => FetchResult.connError) 0 0 (fun _ => none)
      [ex_article_both] ("B")).2.2.1 rfl
  · exact ((claimC6 (fun _ => FetchResult.connError) 0 0 (fun _ => none)
      [ex_article_both] ("B")).2.2.2 (fun _ => some (("E")))).1

set_option maxRecDepth 100000 in
/-- Counterexample to claim C7 as stated: two entries with the same
formatted date, the youtube one from the first delivered article and the
bandcamp one from the second, are emitted bandcamp first, so the final
order of date ties depends on the media kind and not on article order. -/
theorem claimC7_counterexample :
    (all_embeds_sorted
      (process_feed (fun _ => some (("EMB"))) [ex_article_first, ex_article_second]).out_bandcamp
      (process_feed (fun _ => some (("EMB"))) [ex_article_first, ex_article_second]).out_youtube
      (process_feed (fun _ => some (("EMB"))) [ex_article_first, ex_article_second]).out_soundcloud).map
        Entry.title = [("second article"), ("first article")] ∧
    (all_embeds_sorted
      (process_feed (fun _ => some (("EMB"))) [ex_article_first, ex_article_second]).out_bandcamp
      (process_feed (fun _ => some (("EMB"))) [ex_article_first, ex_article_second]).out_youtube
      (process_feed (fun _ => some (("EMB"))) [ex_article_first, ex_article_second]).out_soundcloud).map
        Entry.date = [("2024-01-01 10:00"), ("2024-01-01 10:00")] ∧
    (all_embeds_sorted
      (process_feed (fun _ => some (("EMB"))) [ex_article_first, ex_article_second]).out_bandcamp
      (process_feed (fun _ => some (("EMB"))) [ex_article_first, ex_article_second]).out_youtube
      (process_feed (fun _ => some (("EMB"))) [ex_article_first, ex_article_second]).out_soundcloud).map
        Entry.type = [("bandcamp"), ("youtube")] := by
  refine ⟨by decide, by decide, by decide⟩

/-- Claim C7 as amended: the merged list handed to the paginator is sorted
by formatted date descending with a stable sort over the concatenation of
bandcamp, youtube and soundcloud entries in that order, so date ties are
grouped by media kind and, within one kind, keep article order. -/
theorem claimC7 (bc yt sc : List RawEmbed) :
    (all_embeds_sorted bc yt sc).Perm
      (bc.map (mk_display_entry ("bandcamp")) ++
        yt.map (mk_display_entry ("youtube")) ++
        sc.map (mk_display_entry ("soundcloud"))) ∧
    List.Sorted date_ge (all_embeds_sorted bc yt sc) ∧
    ∀ dt, (all_embeds_sorted bc yt sc).filter (fun e => e.date == dt) =
      (bc.map (mk_display_entry ("bandcamp")) ++
        yt.map (mk_display_entry ("youtube")) ++
        sc.map (mk_display_entry ("soundcloud"))).filter (fun e => e.date == dt) := by
  unfold all_embeds_sorted
  refine ⟨List.perm_insertionSort date_ge _, ?_, fun dt => insertionSort_filter_date dt _⟩
  exact @List.sorted_insertionSort Entry date_ge _
    ⟨fun a b => chars_le_total b.date.data a.date.data⟩
    ⟨fun _ _ _ h1 h2 => chars_le_trans _ _ _ h2 h1⟩ _

set_option maxRecDepth 400000 in
/-- Counterexample to claim C8 as stated: a bandcamp page whose only
extractable datum is a bare embedded player iframe materializes an entry
whose display id is missing. -/
theorem claimC8_counterexample :
    ((process_feed (fun _ => get_bandcamp_embed (fun _ => .success ex_iframe_page) 3)
      [ex_article_bc]).out_bandcamp).map RawEmbed.id = [none] := by
  decide

/-- Claim C8 as amended: every materialized bandcamp entry carries embed
markup successfully produced by the resolver for its url, and its display
id is exactly the identifier extracted from that markup, which is absent
when the markup holds no album or track numeric parameter. -/
theorem claimC8 (resolver : String → Option String) (articles : List Article) :
    ∀ e ∈ (process_feed resolver articles).out_bandcamp,
      ∃ emb, resolver e.url = some emb ∧ e.embed = some emb ∧
        e.id = extract_bandcamp_id emb :=
  process_feed_resolved resolver articles

set_option maxRecDepth 100000 in
/-- Witness for claim C8 on a resolver whose markup holds an album
parameter. -/
theorem claimC8_witness :
    ∃ emb, ex_resolver_ok (ex_mk_item.url) = some emb ∧
      ex_mk_item.embed = some emb ∧ ex_mk_item.id = extract_bandcamp_id emb :=
  claimC8 ex_resolver_ok [ex_article_bc] ex_mk_item (by decide)

/-- Claim C9: the extraction cascade is ordered with first success wins;
whenever the primary TralbumData block is present and holds an album
identifier, the returned markup is built from that identifier, never from
any later generic pattern match. -/
theorem claimC9 (html : String) (block aid : List Char)
    (h1 : tralbum_data_block html.data = some block)
    (h2 : search_album_id block = some aid) :
    fetch_bandcamp_embed_from_html html = some (album_embed_html aid) := by
  have hm : method1_tralbum html.data = some (album_embed_html aid) := by
    simp [method1_tralbum, h1, h2]
  simp [fetch_bandcamp_embed_from_html, hm]

set_option maxRecDepth 40000 in
/-- Witness for claim C9 on a page holding both the primary block with
album id 111 and a later generic nine-digit album pattern. -/
theorem claimC9_witness :
    tralbum_data_block ex_primary_page.data =
      some (("\x7b \"album_id\": 111 \x7d").data) ∧
    search_album_id (("\x7b \"album_id\": 111 \x7d").data) = some (("111").data) ∧
    search_album_num ex_primary_page.data = some (("123456789").data) ∧
    fetch_bandcamp_embed_from_html ex_primary_page =
      some (album_embed_html (("111").data)) ∧
    album_embed_html (("111").data) ≠ album_embed_html (("123456789").data) :=
  ⟨by decide, by decide, by decide,
    claimC9 ex_primary_page (("\x7b \"album_id\": 111 \x7d").data) (("111").data)
      (by decide) (by decide),
    by decide⟩

/-- Claim C10: within one run no two retained entries of the same kind
share a url, and no url is ever handed to the resolver twice; the first
occurrence is the only one resolved, every later occurrence is discarded. -/
theorem claimC10 (resolver : String → Option String) (articles : List Article) :
    ((process_feed resolver articles).out_bandcamp.map RawEmbed.url).Nodup ∧
    ((process_feed resolver articles).out_youtube.map RawEmbed.url).Nodup ∧
    ((process_feed resolver articles).out_soundcloud.map RawEmbed.url).Nodup ∧
    ((process_feed resolver articles).resolved_log).Nodup := by
  obtain ⟨h1, _, h3, _, h5, _, h7, _⟩ := process_feed_dedup resolver articles
  exact ⟨h1, h5, h7, h3⟩

end FreshRSS
